import Mathlib

/-!
# Verification of the loupedeck driver's protocol engine

Shallow embedding of the Go package `loupedeck` (scottlaird/loupedeck):
the message codec, transaction-ID allocator, transaction correlator,
receive-loop dispatch, coordinate-to-zone mapping, display framing and
the derived input abstractions (IntKnob, MultiButton, TouchDial).

Bytes are modelled as `Nat` (values < 256 where the Go type is `byte`,
< 65536 where it is `uint16`); byte sequences as `List Nat`.  Go code
paths that panic at runtime are modelled by `Option`/dedicated result
constructors rather than by a value.
-/

namespace Loupedeck

/-! ## Message codec (src/message.go) -/

/-- Protocol message type codes, from the `const` block of src/message.go. -/
def ButtonPress : Nat := 0x00

def KnobRotate : Nat := 0x01

def SetColor : Nat := 0x02

def Serial : Nat := 0x03

def Reset : Nat := 0x06

def Version : Nat := 0x07

def MCU : Nat := 0x0d

def WriteFramebuff : Nat := 0x10

def Draw : Nat := 0x0f

def SetVibration : Nat := 0x1b

def Touch : Nat := 0x4d

def TouchEnd : Nat := 0x6d

def TouchEndCT : Nat := 0x72

/-- Go struct `Message` (src/message.go): `transactionID`, `messageType`
and `length` are single bytes, `data` is the payload byte slice. -/
structure Message where
  length : Nat
  messageType : Nat
  transactionID : Nat
  data : List Nat
deriving DecidableEq, Repr

/-- Go `(l *Loupedeck) NewMessage(messageType, data)` (src/message.go:50-64),
with the transaction ID made an explicit argument (the Go code draws it
from `l.newTransactionID()`): `length := len(data) + 3; if length > 255
\x7b length = 255 \x7d`. -/
def NewMessage (messageType transactionID : Nat) (data : List Nat) : Message :=
  let length := if data.length + 3 > 255 then 255 else data.length + 3
  { length := length
    messageType := messageType
    transactionID := transactionID
    data := data }

/-- Go `(m *Message) asBytes()` (src/message.go:80-88): the three header
bytes `[length][type][transactionID]` followed by the payload. -/
def Message.asBytes (m : Message) : List Nat :=
  [m.length, m.messageType, m.transactionID] ++ m.data

/-- Outcome of `ParseMessage`.  The Go function's `error` result is always
`nil`; indexing `b[0]`, `b[1]`, `b[2]` on a slice shorter than 3 bytes
does not return at all — it raises an index-out-of-range runtime panic,
modelled by the `panic` constructor. -/
inductive ParseResult where
  | ok (m : Message)
  | panicked
deriving DecidableEq, Repr

/-- Go `(l *Loupedeck) ParseMessage(b)` (src/message.go:69-77): reads
`length`, `messageType`, `transactionID` from the first three bytes and
takes `b[3:]` as payload, with no length check whatsoever. -/
def ParseMessage (b : List Nat) : ParseResult :=
  match b with
  | b0 :: b1 :: b2 :: rest =>
      .ok { length := b0, messageType := b1, transactionID := b2, data := rest }
  | _ => .panicked

/-! ## Transaction-ID allocation (src/message.go:106-117) -/

/-- Go `(l *Loupedeck) newTransactionID()`: the counter is a `uint8`, so
`t++` wraps 255 to 0; a resulting 0 is replaced by 1.  The new counter
value is both stored and returned.  State is the counter value (< 256). -/
def newTransactionID (s : Nat) : Nat :=
  let t := (s + 1) % 256
  if t = 0 then 1 else t

/-- The list of values returned by `n` successive calls of
`newTransactionID` starting from counter state `s`. -/
def txnRun : Nat → Nat → List Nat
  | 0, _ => []
  | n + 1, s => newTransactionID s :: txnRun n (newTransactionID s)

/-! ## Theorems for claims C1, C2, C5 -/

/-- C1.  Codec round-trip: for every message type byte, transaction ID
byte and payload of length at most 252, parsing the wire bytes of the
built message yields back exactly the same type, transaction ID and
payload, and the decoded length byte equals 3 plus the payload length. -/
theorem codec_roundtrip (t tid : Nat) (payload : List Nat)
    (_ht : t < 256) (_htid : tid < 256) (hp : payload.length ≤ 252) :
    ParseMessage (Message.asBytes (NewMessage t tid payload)) =
      .ok { length := 3 + payload.length
            messageType := t
            transactionID := tid
            data := payload } := by
  have hlen : ¬ payload.length + 3 > 255 := by omega
  simp [NewMessage, Message.asBytes, ParseMessage, hlen]
  omega

/-- Witness for `codec_roundtrip` at type 0x10, transaction ID 7,
payload `[1, 2, 3]`. -/
theorem codec_roundtrip_witness :
    ParseMessage (Message.asBytes (NewMessage 0x10 7 [1, 2, 3])) =
      .ok { length := 3 + 3, messageType := 0x10, transactionID := 7,
            data := [1, 2, 3] } :=
  codec_roundtrip 0x10 7 [1, 2, 3] (by decide) (by decide) (by decide)

set_option maxRecDepth 4000 in
/-- C2.  Transaction-ID allocation: 256 successive calls from initial
counter state 0 return `1, 2, …, 255, 1` — never 0, each value of
`1..255` exactly once before any repeat — and the counter wraps from
255 back to 1, skipping 0. -/
theorem transaction_id_allocation :
    txnRun 256 0 = (List.range 255).map (· + 1) ++ [1] ∧
    (∀ v ∈ txnRun 256 0, v ≠ 0) ∧
    ((txnRun 256 0).take 255).Nodup ∧
    newTransactionID 255 = 1 := by
  have h : txnRun 256 0 = (List.range 255).map (· + 1) ++ [1] := by decide
  refine ⟨h, ?_, ?_, by decide⟩
  · intro v hv
    rw [h] at hv
    rcases List.mem_append.mp hv with h1 | h1
    · rcases List.mem_map.mp h1 with ⟨w, _, rfl⟩
      omega
    · simp only [List.mem_singleton] at h1
      omega
  · rw [h, List.take_left' (by simp)]
    exact (List.nodup_range 255).map (fun a b => by omega)

set_option maxRecDepth 4000 in
/-- Witness for `transaction_id_allocation`: its universally quantified
conjunct applied to the concrete output value 1, which is a member of
the allocated sequence. -/
theorem transaction_id_allocation_witness :
    (1 ∈ txnRun 256 0) ∧ (1 : Nat) ≠ 0 :=
  ⟨by decide, transaction_id_allocation.2.1 1 (by decide)⟩

/-- C5.  The frame decoder on inputs shorter than 3 bytes: `ParseMessage`
performs no length check; on such inputs it panics (index out of range)
instead of surfacing an error — the code-level behaviour behind the
claim, evaluated on every input of length < 3 and shown at the concrete
failing inputs `[]`, `[5]`, `[5, 16]`. -/
theorem parse_short_frame_panics :
    (∀ b : List Nat, b.length < 3 → ParseMessage b = .panicked) ∧
    ParseMessage [] = .panicked ∧
    ParseMessage [5] = .panicked ∧
    ParseMessage [5, 16] = .panicked := by
  refine ⟨?_, rfl, rfl, rfl⟩
  intro b hb
  match b with
  | [] => rfl
  | [_] => rfl
  | [_, _] => rfl
  | _ :: _ :: _ :: _ => simp only [List.length_cons] at hb; omega

/-- Witness for `parse_short_frame_panics`: its universally quantified
conjunct applied to the concrete 2-byte input `[5, 16]`. -/
theorem parse_short_frame_panics_witness :
    ([5, 16] : List Nat).length < 3 ∧ ParseMessage [5, 16] = .panicked :=
  ⟨by decide, parse_short_frame_panics.1 [5, 16] (by decide)⟩

/-! ## Transaction correlator (src/message.go:132-157, src/unnamed/part_004)

The Go field `transactionCallbacks` is a map from the transaction-ID byte
to a callback; the receive loop clears an entry by assigning `nil` to it.
The state relevant to the claims is which IDs currently hold a non-nil
callback, modelled as a `Nat → Bool` table. -/

/-- Go `(l *Loupedeck) SendWithCallback(m, c)` (src/message.go:132-137),
restricted to its effect on the pending-transaction table:
`l.transactionCallbacks[m.transactionID] = c` (a non-nil callback),
then the message is sent. -/
def SendWithCallback (tbl : Nat → Bool) (tid : Nat) : Nat → Bool :=
  fun t => if t = tid then true else tbl t

/-- Result of one `sendAndWait` call: the response (if any), whether the
timeout error was returned, and the pending-transaction table after the
call returns. -/
structure WaitOutcome where
  resp : Option Message
  timedOut : Bool
  table : Nat → Bool

/-- Go `(l *Loupedeck) sendAndWait(m, timeout)` (src/message.go:140-157)
on the path where no response with the matching transaction ID arrives
before the timeout: the callback is registered via `SendWithCallback`,
the `select` takes the `time.After` branch and returns
`(nil, "Timeout waiting for response")`.  No statement on this path
touches `l.transactionCallbacks`, so the table keeps the entry. -/
def sendAndWaitTimeoutPath (tbl : Nat → Bool) (tid : Nat) : WaitOutcome :=
  { resp := none
    timedOut := true
    table := SendWithCallback tbl tid }

/-- The correlated-response branch of the receive loop, Go `Listen`
(src/unnamed/part_004:35-41):

  if m.transactionID != 0 \x7b
    if c := l.transactionCallbacks[m.transactionID]; c != nil \x7b
      c(m)
      l.transactionCallbacks[m.transactionID] = nil
    \x7d
  \x7d

Returns the trace of callback invocations — each entry records the
transaction ID and whether the table still held the entry for that ID at
the moment the callback ran — together with the table after the branch. -/
def listenTransaction (tbl : Nat → Bool) (tid : Nat) :
    List (Nat × Bool) × (Nat → Bool) :=
  if tid ≠ 0 ∧ tbl tid then
    -- c(m) runs first, observing the unmodified table `tbl`;
    -- only afterwards is the entry assigned nil.
    ([(tid, tbl tid)], fun t => if t = tid then false else tbl t)
  else
    ([], tbl)

/-! ## Theorems for claims C3 and C4 -/

/-- C3.  Send-and-wait timeout path, evaluated at the failing input
(empty table, transaction ID 1): `sendAndWait` does return the timeout
error with no response, but the pending-transaction table still contains
the entry for the transaction ID after the call returns — the dangling
subscription the claim rules out. -/
theorem sendAndWait_timeout_leaves_entry :
    (sendAndWaitTimeoutPath (fun _ => false) 1).timedOut = true ∧
    (sendAndWaitTimeoutPath (fun _ => false) 1).resp = none ∧
    (sendAndWaitTimeoutPath (fun _ => false) 1).table 1 = true := by
  refine ⟨rfl, rfl, ?_⟩
  simp [sendAndWaitTimeoutPath, SendWithCallback]

/-- C4 counterexample.  Receive-loop dispatch of a frame with transaction
ID 5 against a table holding a callback exactly for 5: the callback is
invoked exactly once, but the trace records `true` — the table still
contained the entry for ID 5 at the moment the callback ran, so the
entry was not cleared before the invocation as the claim states (it is
cleared only afterwards). -/
theorem listen_clears_after_callback_cex :
    (listenTransaction (fun t => t == 5) 5).1 = [(5, true)] ∧
    (listenTransaction (fun t => t == 5) 5).2 5 = false := by
  constructor <;> simp [listenTransaction]

/-- C4 amended.  For every inbound frame whose non-zero transaction ID
has a registered callback: the receive loop invokes the callback exactly
once, the table entry is still present at the moment the callback runs,
and the entry is cleared immediately after the callback returns (all
other entries are untouched). -/
theorem listen_callback_once_cleared_after (tbl : Nat → Bool) (tid : Nat)
    (h0 : tid ≠ 0) (hc : tbl tid = true) :
    (listenTransaction tbl tid).1 = [(tid, true)] ∧
    (listenTransaction tbl tid).2 tid = false ∧
    (∀ t, t ≠ tid → (listenTransaction tbl tid).2 t = tbl t) := by
  refine ⟨?_, ?_, ?_⟩
  · simp [listenTransaction, h0, hc]
  · simp [listenTransaction, h0, hc]
  · intro t ht
    simp [listenTransaction, h0, hc, ht]

/-- Witness for `listen_callback_once_cleared_after` at the table holding
only ID 5 and an inbound frame with transaction ID 5. -/
theorem listen_callback_once_cleared_after_witness :
    (listenTransaction (fun t => t == 7) 7).1 = [(7, true)] ∧
    (listenTransaction (fun t => t == 7) 7).2 7 = false ∧
    (∀ t, t ≠ 7 → (listenTransaction (fun t => t == 7) 7).2 t = (t == 7)) :=
  listen_callback_once_cleared_after (fun t => t == 7) 7 (by decide) (by simp)

/-! ## Coordinate-to-zone mapping (src/unnamed/part_000:134-147) -/

/-- Go `TouchButton` constants (src/unnamed/part_000). -/
def TouchLeft : Nat := 1

def TouchRight : Nat := 2

def Touch1 : Nat := 3

def Touch2 : Nat := 4

def Touch3 : Nat := 5

def Touch4 : Nat := 6

def Touch5 : Nat := 7

def Touch6 : Nat := 8

def Touch7 : Nat := 9

def Touch8 : Nat := 10

def Touch9 : Nat := 11

def Touch10 : Nat := 12

def Touch11 : Nat := 13

def Touch12 : Nat := 14

/-- Go `touchCoordToButton(x, y uint16)` (src/unnamed/part_000:134-147):
left edge below x=60, right edge from x=420, otherwise
`Touch1 + (x-60)/90 + 4*(y/90)`.  Arguments are uint16 values; within
that range none of the operations can wrap, so plain `Nat` arithmetic is
exact. -/
def touchCoordToButton (x y : Nat) : Nat :=
  if x < 60 then TouchLeft
  else if x ≥ 420 then TouchRight
  else Touch1 + (x - 60) / 90 + 4 * (y / 90)

/-- C6.  Coordinate-to-zone mapping: for every uint16 coordinate pair,
x < 60 maps to the left edge, x ≥ 420 to the right edge, and the grid
zone is `Touch1 + (x-60)/90 + 4*(y/90)` otherwise; in particular
(0,0) is the left edge, (425,0) the right edge, (60,0) and (149,0) zone 1,
(150,0) zone 2, (60,90) zone 5 and (60,180) zone 9. -/
theorem touch_zone_mapping (x y : Nat) (_hx : x < 65536) (_hy : y < 65536) :
    ((x < 60 → touchCoordToButton x y = TouchLeft) ∧
     (420 ≤ x → touchCoordToButton x y = TouchRight) ∧
     (60 ≤ x → x < 420 →
       touchCoordToButton x y = Touch1 + (x - 60) / 90 + 4 * (y / 90))) ∧
    touchCoordToButton 0 0 = TouchLeft ∧
    touchCoordToButton 425 0 = TouchRight ∧
    touchCoordToButton 60 0 = Touch1 ∧
    touchCoordToButton 149 0 = Touch1 ∧
    touchCoordToButton 150 0 = Touch2 ∧
    touchCoordToButton 60 90 = Touch5 ∧
    touchCoordToButton 60 180 = Touch9 := by
  refine ⟨⟨?_, ?_, ?_⟩, by decide, by decide, by decide, by decide,
    by decide, by decide, by decide⟩
  · intro h
    simp [touchCoordToButton, h]
  · intro h
    have h1 : ¬ x < 60 := by omega
    simp [touchCoordToButton, h1, h]
  · intro h1 h2
    have h3 : ¬ x < 60 := by omega
    have h4 : ¬ x ≥ 420 := by omega
    simp [touchCoordToButton, h3, h4]

/-- Witness for `touch_zone_mapping` at (150, 90). -/
theorem touch_zone_mapping_witness :
    (((150 : Nat) < 60 → touchCoordToButton 150 90 = TouchLeft) ∧
     (420 ≤ 150 → touchCoordToButton 150 90 = TouchRight) ∧
     (60 ≤ 150 → 150 < 420 →
       touchCoordToButton 150 90 = Touch1 + (150 - 60) / 90 + 4 * (90 / 90))) ∧
    touchCoordToButton 0 0 = TouchLeft ∧
    touchCoordToButton 425 0 = TouchRight ∧
    touchCoordToButton 60 0 = Touch1 ∧
    touchCoordToButton 149 0 = Touch1 ∧
    touchCoordToButton 150 0 = Touch2 ∧
    touchCoordToButton 60 90 = Touch5 ∧
    touchCoordToButton 60 180 = Touch9 :=
  touch_zone_mapping 150 90 (by decide) (by decide)

/-! ## Bounded integer knob (src/intknob.go)

The `WatchedInt` under the knob is an integer cell whose `Set` stores the
value and synchronously notifies watchers; the watchers do not write the
cell back, so for the clamping claims the watched state is the stored
integer itself (field `val`). -/

/-- Go struct `IntKnob` (src/intknob.go:23-28); `val` is the current
value of the underlying `WatchedInt`. -/
structure IntKnob where
  min : Int
  max : Int
  val : Int
deriving DecidableEq, Repr

/-- Go `(k *IntKnob) Set(v)` (src/intknob.go:37-45): clamp below to
`min`, then above to `max`, then `k.watchedint.Set(v)`. -/
def IntKnob.Set (k : IntKnob) (v : Int) : IntKnob :=
  let v1 := if v < k.min then k.min else v
  let v2 := if v1 > k.max then k.max else v1
  { k with val := v2 }

/-- Go `(k *IntKnob) Inc(v)` (src/intknob.go:50-60): add `v` to the
current watched value, clamp below to `min` then above to `max`, store. -/
def IntKnob.Inc (k : IntKnob) (v : Int) : IntKnob :=
  let x := k.val + v
  let x1 := if x < k.min then k.min else x
  let x2 := if x1 > k.max then k.max else x1
  { k with val := x2 }

/-- One operation of the claim's Inc/Set sequences. -/
inductive KnobOp where
  | set (v : Int)
  | inc (v : Int)
deriving DecidableEq, Repr

/-- Apply one `KnobOp` to an `IntKnob`. -/
def IntKnob.applyOp (k : IntKnob) : KnobOp → IntKnob
  | .set v => k.Set v
  | .inc v => k.Inc v

/-- Apply a sequence of `KnobOp`s, left to right. -/
def IntKnob.applyOps (k : IntKnob) (ops : List KnobOp) : IntKnob :=
  ops.foldl IntKnob.applyOp k

/-- Bounds are never modified and a single operation always lands the
value in `[min, max]` when `min ≤ max`. -/
theorem IntKnob.applyOp_spec (k : IntKnob) (op : KnobOp) (hmm : k.min ≤ k.max) :
    (k.applyOp op).min = k.min ∧ (k.applyOp op).max = k.max ∧
    k.min ≤ (k.applyOp op).val ∧ (k.applyOp op).val ≤ k.max := by
  cases op with
  | set v =>
      refine ⟨rfl, rfl, ?_, ?_⟩ <;>
        · simp only [IntKnob.applyOp, IntKnob.Set]
          split <;> try split
          all_goals omega
  | inc v =>
      refine ⟨rfl, rfl, ?_, ?_⟩ <;>
        · simp only [IntKnob.applyOp, IntKnob.Inc]
          split <;> try split
          all_goals omega

/-- Sequences of operations keep the watched value in `[min, max]`. -/
theorem IntKnob.applyOps_in_range (ops : List KnobOp) :
    ∀ k : IntKnob, k.min ≤ k.max → k.min ≤ k.val → k.val ≤ k.max →
      k.min ≤ (k.applyOps ops).val ∧ (k.applyOps ops).val ≤ k.max := by
  induction ops with
  | nil => exact fun k _ hlo hhi => ⟨hlo, hhi⟩
  | cons op rest ih =>
      intro k hmm hlo hhi
      have h1 := IntKnob.applyOp_spec k op hmm
      have h2 := ih (k.applyOp op) (by rw [h1.1, h1.2.1]; exact hmm)
        (by rw [h1.1]; exact h1.2.2.1) (by rw [h1.2.1]; exact h1.2.2.2)
      rw [show k.applyOps (op :: rest) = (k.applyOp op).applyOps rest from rfl]
      exact ⟨h1.1 ▸ h2.1, h1.2.1 ▸ h2.2⟩

/-- C8.  Bounded knob clamping: with `min ≤ max` and a starting watched
value inside `[min, max]`, the watched value stays inside `[min, max]`
after every sequence of `Inc` and `Set` operations; `Set` below `min`
stores `min` and `Set` above `max` stores `max` (silent clamping, no
error value exists). -/
theorem intknob_clamping (k : IntKnob) (ops : List KnobOp)
    (hmm : k.min ≤ k.max) (hlo : k.min ≤ k.val) (hhi : k.val ≤ k.max) :
    (k.min ≤ (k.applyOps ops).val ∧ (k.applyOps ops).val ≤ k.max) ∧
    (∀ v, v < k.min → (k.Set v).val = k.min) ∧
    (∀ v, v > k.max → (k.Set v).val = k.max) := by
  refine ⟨IntKnob.applyOps_in_range ops k hmm hlo hhi, ?_, ?_⟩
  · intro v hv
    simp only [IntKnob.Set]
    split <;> try split
    all_goals omega
  · intro v hv
    simp only [IntKnob.Set]
    split <;> try split
    all_goals omega

/-- Witness for `intknob_clamping`: knob with bounds `[0, 100]`, starting
value 50, operations `Inc 80; Set 300; Inc (-500); Set (-7)`. -/
theorem intknob_clamping_witness :
    (((⟨0, 100, 50⟩ : IntKnob).min ≤
        ((⟨0, 100, 50⟩ : IntKnob).applyOps
          [.inc 80, .set 300, .inc (-500), .set (-7)]).val ∧
      ((⟨0, 100, 50⟩ : IntKnob).applyOps
          [.inc 80, .set 300, .inc (-500), .set (-7)]).val ≤
        (⟨0, 100, 50⟩ : IntKnob).max) ∧
     (∀ v, v < (⟨0, 100, 50⟩ : IntKnob).min →
        ((⟨0, 100, 50⟩ : IntKnob).Set v).val = (⟨0, 100, 50⟩ : IntKnob).min) ∧
     (∀ v, v > (⟨0, 100, 50⟩ : IntKnob).max →
        ((⟨0, 100, 50⟩ : IntKnob).Set v).val = (⟨0, 100, 50⟩ : IntKnob).max)) :=
  intknob_clamping ⟨0, 100, 50⟩ [.inc 80, .set 300, .inc (-500), .set (-7)]
    (by decide) (by decide) (by decide)

/-! ## Multi-state touch button (src/multibutton.go)

`MultiButton` keeps parallel lists `images` and `values` plus the shared
`WatchedInt`.  The images never influence the value cycle (they are only
drawn), so they are represented by their count `numImages`, which is what
`Advance` compares against (`len(m.images)`); `value` is the current
value of the shared `WatchedInt`. -/

/-- Go struct `MultiButton` (src/multibutton.go:28-35). -/
structure MultiButton where
  numImages : Nat
  values : List Int
  value : Int
deriving DecidableEq, Repr

/-- The loop of Go `(m *MultiButton) GetCur()` (src/multibutton.go:115-124):
index of the first element of `values` equal to the current value. -/
def findValue : List Int → Int → Option Nat
  | [], _ => none
  | v :: vs, c => if v = c then some 0 else (findValue vs c).map (· + 1)

/-- Go `(m *MultiButton) GetCur()`: first matching index, or 0 (with a
printed complaint) when the current value occurs nowhere in `values`. -/
def MultiButton.GetCur (m : MultiButton) : Nat :=
  (findValue m.values m.value).getD 0

/-- Go `(m *MultiButton) Advance()` (src/multibutton.go:128-134):
`c := m.GetCur() + 1; if c >= len(m.images) \x7b c = 0 \x7d;
m.value.Set(m.values[c])`.  `none` models the index-out-of-range panic
of `m.values[c]` when `c` is not a valid index. -/
def MultiButton.Advance (m : MultiButton) : Option MultiButton :=
  let c := m.GetCur + 1
  let c2 := if c ≥ m.numImages then 0 else c
  (m.values[c2]?).map (fun v => { m with value := v })

/-- Touching the button `n` times in sequence: `n`-fold `Advance`. -/
def MultiButton.AdvanceN (m : MultiButton) : Nat → Option MultiButton
  | 0 => some m
  | n + 1 => m.Advance.bind (fun m2 => m2.AdvanceN n)

/-- On a duplicate-free list, `findValue` recovers the index of any
element. -/
theorem findValue_get (vs : List Int) (hnd : vs.Nodup) :
    ∀ (i : Nat) (h : i < vs.length), findValue vs (vs.get ⟨i, h⟩) = some i := by
  induction vs with
  | nil => intro i h; simp at h
  | cons v tail ih =>
      intro i h
      cases i with
      | zero => simp [findValue]
      | succ n =>
          have hn : n < tail.length := by simpa using h
          have hmem : tail.get ⟨n, hn⟩ ∈ tail := tail.get_mem _ _
          have hnotin : v ∉ tail := (List.nodup_cons.mp hnd).1
          have hne : ¬ v = (v :: tail).get ⟨n + 1, h⟩ := by
            simp only [List.get_cons_succ]
            intro heq
            exact hnotin (heq ▸ hmem)
          have htail := ih (List.nodup_cons.mp hnd).2 n hn
          have hne2 : ¬ v = tail[n] := by
            simpa [List.get_cons_succ, List.get_eq_getElem] using hne
          have htail2 : findValue tail tail[n] = some n := by
            simpa [List.get_eq_getElem] using htail
          simp [findValue, hne2, htail2]

/-- One `Advance` on a duplicate-free button whose value sits at index
`i` succeeds and moves the value to index `(i+1) mod N`. -/
theorem MultiButton.advance_eq (m : MultiButton) (i : Nat)
    (hi : i < m.values.length) (hnd : m.values.Nodup)
    (hlen : m.numImages = m.values.length)
    (hv : m.values[i]? = some m.value) :
    ∃ v2, m.values[(i + 1) % m.values.length]? = some v2 ∧
      m.Advance = some { m with value := v2 } := by
  have hvget : m.value = m.values.get ⟨i, hi⟩ := by
    have := List.getElem?_eq_getElem hi
    rw [this] at hv
    simpa [List.get_eq_getElem] using (Option.some_injective _ hv).symm
  have hcur : m.GetCur = i := by
    rw [MultiButton.GetCur, hvget, findValue_get m.values hnd i hi]
    rfl
  have hlt : (i + 1) % m.values.length < m.values.length :=
    Nat.mod_lt _ (by omega)
  refine ⟨m.values.get ⟨(i + 1) % m.values.length, hlt⟩, ?_, ?_⟩
  · rw [List.getElem?_eq_getElem hlt]
    simp [List.get_eq_getElem]
  · have hc2 : (if i + 1 ≥ m.numImages then 0 else i + 1) =
        (i + 1) % m.values.length := by
      rw [hlen]
      rcases Nat.lt_or_ge (i + 1) m.values.length with h | h
      · rw [if_neg (by omega), Nat.mod_eq_of_lt h]
      · have he : i + 1 = m.values.length := by omega
        rw [if_pos (by omega), he, Nat.mod_self]
    simp only [MultiButton.Advance, hcur, hc2]
    rw [List.getElem?_eq_getElem hlt]
    simp [List.get_eq_getElem]

/-- Touching `k` times moves the value from index `i` to index
`(i+k) mod N`, preserving the value list and image count. -/
theorem MultiButton.advanceN_eq (k : Nat) :
    ∀ (m : MultiButton) (i : Nat), i < m.values.length → m.values.Nodup →
      m.numImages = m.values.length → m.values[i]? = some m.value →
      ∃ m2, m.AdvanceN k = some m2 ∧ m2.values = m.values ∧
        m2.numImages = m.numImages ∧
        m2.values[(i + k) % m2.values.length]? = some m2.value := by
  induction k with
  | zero =>
      intro m i hi hnd hlen hv
      refine ⟨m, rfl, rfl, rfl, ?_⟩
      rwa [Nat.add_zero, Nat.mod_eq_of_lt hi]
  | succ n ih =>
      intro m i hi hnd hlen hv
      obtain ⟨v2, hv2, hadv⟩ := MultiButton.advance_eq m i hi hnd hlen hv
      set m1 : MultiButton := { m with value := v2 } with hm1
      have hlt : (i + 1) % m.values.length < m.values.length :=
        Nat.mod_lt _ (by omega)
      obtain ⟨m2, hrun, hvals, hnum, hval⟩ :=
        ih m1 ((i + 1) % m.values.length) hlt hnd hlen hv2
      refine ⟨m2, ?_, hvals, hnum, ?_⟩
      · show m.Advance.bind (fun x => x.AdvanceN n) = some m2
        rw [hadv]
        simpa using hrun
      · rw [hvals] at hval ⊢
        rwa [Nat.mod_add_mod, Nat.add_right_comm i 1 n] at hval

/-- C9 counterexample.  A `MultiButton` with the 3 (image, value) pairs
carrying values `[1, 2, 1]` and current watched value 1 (one of its
values): three touches leave the watched value at 2, not back at the
starting value 1, and four touches yield 1 while one touch yields 2 —
`GetCur` finds the *first* index holding the current value, so duplicate
values break the cycle. -/
theorem multibutton_cycle_cex :
    ((⟨3, [1, 2, 1], 1⟩ : MultiButton).AdvanceN 3).map MultiButton.value ≠
      some (⟨3, [1, 2, 1], 1⟩ : MultiButton).value ∧
    ((⟨3, [1, 2, 1], 1⟩ : MultiButton).AdvanceN 4).map MultiButton.value ≠
      ((⟨3, [1, 2, 1], 1⟩ : MultiButton).AdvanceN 1).map MultiButton.value := by
  decide

/-- C9 amended.  Multi-state button cycling for pairwise-distinct values:
for a `MultiButton` whose `N` (image, value) pairs carry `N` distinct
values, starting from any of its values, `N` touches return the shared
watched value to its starting value, and `N+1` touches yield the same
watched value as a single touch. -/
theorem multibutton_cycling (m : MultiButton) (i : Nat)
    (hi : i < m.values.length) (hnd : m.values.Nodup)
    (hlen : m.numImages = m.values.length)
    (hv : m.values[i]? = some m.value) :
    (m.AdvanceN m.values.length).map MultiButton.value = some m.value ∧
    (m.AdvanceN (m.values.length + 1)).map MultiButton.value =
      (m.AdvanceN 1).map MultiButton.value := by
  obtain ⟨m2, h2, hvals2, _, hval2⟩ :=
    MultiButton.advanceN_eq m.values.length m i hi hnd hlen hv
  obtain ⟨m3, h3, hvals3, _, hval3⟩ :=
    MultiButton.advanceN_eq (m.values.length + 1) m i hi hnd hlen hv
  obtain ⟨m4, h4, hvals4, _, hval4⟩ :=
    MultiButton.advanceN_eq 1 m i hi hnd hlen hv
  constructor
  · rw [h2]
    rw [hvals2] at hval2
    have hidx : (i + m.values.length) % m.values.length = i := by
      rw [Nat.add_mod_right, Nat.mod_eq_of_lt hi]
    rw [hidx] at hval2
    rw [hval2] at hv
    simp [Option.map_some', (Option.some_injective _ hv)]
  · rw [h3, h4]
    rw [hvals3] at hval3
    rw [hvals4] at hval4
    have hidx : (i + (m.values.length + 1)) % m.values.length =
        (i + 1) % m.values.length := by
      rw [show i + (m.values.length + 1) = i + 1 + m.values.length by omega,
        Nat.add_mod_right]
    rw [hidx] at hval3
    rw [hval3] at hval4
    simp [Option.map_some', Option.some_injective _ hval4]

/-- Witness for `multibutton_cycling`: a button with values `[10, 20]`
starting at value 10. -/
theorem multibutton_cycling_witness :
    ((⟨2, [10, 20], 10⟩ : MultiButton).AdvanceN 2).map MultiButton.value =
      some (⟨2, [10, 20], 10⟩ : MultiButton).value ∧
    ((⟨2, [10, 20], 10⟩ : MultiButton).AdvanceN (2 + 1)).map MultiButton.value =
      ((⟨2, [10, 20], 10⟩ : MultiButton).AdvanceN 1).map MultiButton.value := by
  have h := multibutton_cycling ⟨2, [10, 20], 10⟩ 0 (by decide)
    (by decide) (by decide) (by decide)
  simpa using h

/-! ## Display / pixel-framing engine (src/display.go) -/

/-- Go struct `Display` (src/display.go:13-20), without the back-pointer
to the session handle. -/
structure Display where
  id : Nat
  width : Int
  height : Int
  offsetx : Int
  offsety : Int
  bigEndian : Bool
deriving DecidableEq, Repr

/-- Go `binary.BigEndian.PutUint16` applied to `uint16(v)` for an `int`
argument: the value modulo 2^16, high byte first.  `Int.emod` matches
Go's two's-complement conversion (result always in `[0, 65536)`). -/
def putUint16BE (v : Int) : List Nat :=
  let w := (Int.emod v 65536).toNat
  [w / 256, w % 256]

/-- An image as `Display.Draw` consumes it: integer bounds
`[minX, maxX) × [minY, maxY)` and, for each coordinate, the 16-bit RGB565
value `pixelcolor.ToRGB565(im.At(x, y))` (a `uint16`, i.e. < 65536; the
conversion itself lives in an external library outside this repository). -/
structure Image where
  minX : Int
  minY : Int
  maxX : Int
  maxY : Int
  at566 : Int → Int → Nat

/-- The pixel-serialization loop of `Display.Draw` (src/display.go:129-144):
row-major over the image bounds, each pixel split into
`lowByte = pixel & 0xff` and `highByte = pixel >> 8`, appended
high-first for big-endian displays and low-first otherwise. -/
def pixelBytes (d : Display) (im : Image) : List Nat :=
  (List.range (im.maxY - im.minY).toNat).flatMap fun j =>
    (List.range (im.maxX - im.minX).toNat).flatMap fun i =>
      let pixel := im.at566 (im.minX + i) (im.minY + j)
      let lowByte := pixel % 256
      let highByte := pixel / 256 % 256
      if d.bigEndian then [highByte, lowByte] else [lowByte, highByte]

/-- Go `(d *Display) Draw(im, xoff, yoff)` (src/display.go:110-174),
modelled as the sequence of `(messageType, payload)` pairs handed to
`NewMessage`/`Send`: one `WriteFramebuff` whose payload is the five
big-endian u16 header fields `[displayID][x][y][width][height]` (x, y
shifted by the display's internal offset) followed by the serialized
pixels, then one `Draw` whose payload is the big-endian u16 display ID. -/
def Display.Draw (d : Display) (im : Image) (xoff yoff : Int) :
    List (Nat × List Nat) :=
  let x := xoff + d.offsetx
  let y := yoff + d.offsety
  let width := im.maxX - im.minX
  let height := im.maxY - im.minY
  let data := putUint16BE d.id ++ putUint16BE x ++ putUint16BE y ++
    putUint16BE width ++ putUint16BE height ++ pixelBytes d im
  let data2 := putUint16BE d.id
  [(WriteFramebuff, data), (Loupedeck.Draw, data2)]

/-- The "main" display of the Loupedeck CT v1 table
(src/display.go:64): `addDisplay("main", 'A', 360, 270, 60, 0, false)` —
protocol id 0x41, internal offset (60, 0), little-endian. -/
def displayMainA : Display :=
  { id := 0x41, width := 360, height := 270, offsetx := 60, offsety := 0,
    bigEndian := false }

/-- A 2×2 image with bounds `[0,2) × [0,2)` and the four given RGB565
pixel values. -/
def img2x2 (p00 p01 p10 p11 : Nat) : Image :=
  { minX := 0, minY := 0, maxX := 2, maxY := 2
    at566 := fun x y =>
      if y = 0 then (if x = 0 then p00 else p01)
      else (if x = 0 then p10 else p11) }

/-- C7.  Draw framing: drawing any 2×2 image at caller offset (10, 20)
on the display with protocol id 0x41, internal offset (60, 0) and
little-endian byte order emits exactly one WriteFramebuff command whose
payload starts with the header bytes
`00 41 00 46 00 14 00 02 00 02` (id 0x0041, x = 70, y = 20, w = 2,
h = 2, big-endian u16 each) followed by the 8 RGB565 pixel bytes
low-byte-first in row-major order, then exactly one Draw command with
payload `00 41`. -/
theorem draw_framing (p00 p01 p10 p11 : Nat) :
    displayMainA.Draw (img2x2 p00 p01 p10 p11) 10 20 =
      [(WriteFramebuff,
        [0x00, 0x41, 0x00, 0x46, 0x00, 0x14, 0x00, 0x02, 0x00, 0x02] ++
        [p00 % 256, p00 / 256 % 256, p01 % 256, p01 / 256 % 256,
         p10 % 256, p10 / 256 % 256, p11 % 256, p11 / 256 % 256]),
       (Loupedeck.Draw, [0x00, 0x41])] := by
  show ([(WriteFramebuff, _), (Loupedeck.Draw, _)] : List (Nat × List Nat)) = _
  simp only [Display.Draw, displayMainA, img2x2, pixelBytes, putUint16BE]
  norm_num [show Int.toNat 65 = 65 from rfl, show Int.toNat 70 = 70 from rfl,
    show Int.toNat 20 = 20 from rfl, show Int.toNat 2 = 2 from rfl,
    List.range_succ, List.flatMap_cons, List.flatMap_nil]

/-! ## TouchDial divisor (src/touchdials.go:170-222) -/

/-- Go struct `TouchDial` (src/touchdials.go:159-167): the three
`IntKnob`s (whose `val` fields are the three `WatchedInt`s
`w1`, `w2`, `w3`), the recorded drag baseline values, the divisor and
the `uint16` drag-start sentinel. -/
structure TouchDial where
  Knob1 : IntKnob
  Knob2 : IntKnob
  Knob3 : IntKnob
  dragv1 : Int
  dragv2 : Int
  dragv3 : Int
  touchdivisor : Int
  dragstart : Nat
deriving DecidableEq, Repr

/-- Go `(l *Loupedeck) NewTouchDial(display, w1, w2, w3, min, max)`
(src/touchdials.go:170-222) as it builds the dial state:
`touchdivisor = int(float64(display.Height()) / float64(max-min))` —
float64 division truncated toward zero, which for a height of 270 and
`max - min > 270` is exactly `Int.tdiv` (both are 0; more generally the
float result only differs from exact division by well under one unit at
these magnitudes) — knobs bound with bounds `[min, max]`, and
`dragstart = 65535`. -/
def NewTouchDial (height : Int) (w1 w2 w3 : Int) (minv maxv : Int) : TouchDial :=
  { Knob1 := { min := minv, max := maxv, val := w1 }
    Knob2 := { min := minv, max := maxv, val := w2 }
    Knob3 := { min := minv, max := maxv, val := w3 }
    dragv1 := 0
    dragv2 := 0
    dragv3 := 0
    touchdivisor := Int.tdiv height (maxv - minv)
    dragstart := 65535 }

/-- The touch-down handler bound by `NewTouchDial`
(src/touchdials.go:200-212): the first report of a drag
(`dragstart == 65535`) records the three current values and the y
coordinate; every further report computes
`delta := (int(dragstart) - int(y)) / touchdivisor` — Go integer
division, truncating toward zero, which panics when `touchdivisor == 0`
(modelled by `none`) — and sets all three knobs to their recorded
baseline plus `delta`. -/
def TouchDial.touchDown (td : TouchDial) (y : Nat) : Option TouchDial :=
  if td.dragstart = 65535 then
    some { td with
      dragv1 := td.Knob1.val
      dragv2 := td.Knob2.val
      dragv3 := td.Knob3.val
      dragstart := y }
  else if td.touchdivisor = 0 then
    none
  else
    let delta := Int.tdiv ((td.dragstart : Int) - (y : Int)) td.touchdivisor
    some { td with
      Knob1 := td.Knob1.Set (td.dragv1 + delta)
      Knob2 := td.Knob2.Set (td.dragv2 + delta)
      Knob3 := td.Knob3.Set (td.dragv3 + delta) }

/-- The touch-up handler bound by `NewTouchDial`
(src/touchdials.go:213-215): reset the drag sentinel. -/
def TouchDial.touchUp (td : TouchDial) : TouchDial :=
  { td with dragstart := 65535 }

/-- C10.  TouchDial divisor totality: on a display of height 270, for
every `max - min` exceeding 270 the stored `touchdivisor` is 0, and a
drag's second consecutive touch-down — the first records the baseline —
hits the division `(dragstart - y) / touchdivisor` with divisor 0, a
runtime panic (`none`): the drag gesture is only well-defined when
`max - min` is at most the display height. -/
theorem touchdial_divisor_zero (w1 w2 w3 minv maxv : Int) (y1 y2 : Nat)
    (hrange : maxv - minv > 270) (hy1 : y1 ≠ 65535) :
    (NewTouchDial 270 w1 w2 w3 minv maxv).touchdivisor = 0 ∧
    ((NewTouchDial 270 w1 w2 w3 minv maxv).touchDown y1).bind
      (fun td => td.touchDown y2) = none := by
  have hdiv : Int.tdiv 270 (maxv - minv) = 0 := by
    apply Int.tdiv_eq_zero_of_lt (by omega) (by omega)
  constructor
  · simpa [NewTouchDial] using hdiv
  · simp [NewTouchDial, TouchDial.touchDown, hy1, hdiv]

/-- Witness for `touchdial_divisor_zero`: bounds `[0, 271]`, first
touch-down at y = 100, second at y = 50. -/
theorem touchdial_divisor_zero_witness :
    (NewTouchDial 270 0 0 0 0 271).touchdivisor = 0 ∧
    ((NewTouchDial 270 0 0 0 0 271).touchDown 100).bind
      (fun td => td.touchDown 50) = none :=
  touchdial_divisor_zero 0 0 0 0 271 100 50 (by decide) (by decide)

end Loupedeck
